import Mathlib

/-!
# Verification of the kai-unified-session goal-graph core

Shallow embedding of the goal graph persistence engine:
the entity model (`models/goal.ts`, `models/project.ts`, `models/snapshot.ts`,
`models/branch.ts`), the service layer (`storage/goal-service.ts`), the YAML
record store (`storage/yaml-store.ts`) and the index builder
(`storage/index-builder.ts`).

Impure inputs of the TypeScript code (wall-clock timestamps from `new Date()`
and random id suffixes from `Math.random()`) are hoisted into explicit string
parameters.  TypeScript `number` is modelled as `Rat` (the values handled by
the code — progress fractions — are exact in every IEEE comparison the code
performs, and the clamping logic is purely order-theoretic).  Optional fields
(`field?: T`) are modelled as `Option`; JavaScript records used as string maps
are modelled as association lists in insertion order.
-/

set_option linter.unusedVariables false
set_option linter.unnecessarySimpa false

/-! ## Entity model: enums (models/goal.ts) -/

inductive GoalStatus
  | active | paused | completed | abandoned | blocked
  deriving DecidableEq, Repr

/-- The string the TypeScript union value denotes (used as index keys). -/
def GoalStatus.toStr : GoalStatus → String
  | .active => "active"
  | .paused => "paused"
  | .completed => "completed"
  | .abandoned => "abandoned"
  | .blocked => "blocked"

inductive Priority
  | high | medium | low
  deriving DecidableEq, Repr

inductive VerificationMethod
  | manual | automated | hybrid
  deriving DecidableEq, Repr

structure Verification where
  criteria : List String
  method : VerificationMethod
  test_commands : Option (List String)
  deriving DecidableEq, Repr

/-- `Partial<Verification>` as used by `CreateGoalInput.verification`. -/
structure PartialVerification where
  criteria : Option (List String) := none
  method : Option VerificationMethod := none
  test_commands : Option (List String) := none
  deriving DecidableEq, Repr

structure SessionReference where
  session_id : String
  date : String
  summary : String
  deriving DecidableEq, Repr

inductive AgentTaskStatus
  | pending | active | completed | failed
  deriving DecidableEq, Repr

structure AgentAssignment where
  id : String
  task : String
  status : AgentTaskStatus
  started : Option String
  completed : Option String
  deriving DecidableEq, Repr

structure Decision where
  decision : String
  rationale : String
  date : String
  reversible : Bool
  deriving DecidableEq, Repr

structure GoalContext where
  primary_files : List String
  related_files : Option (List String)
  sessions : List SessionReference
  agents : List AgentAssignment
  learnings : List String
  decisions : List Decision
  deriving DecidableEq, Repr

/-- Status union shared by `BranchReference.status` and `Branch.status`. -/
inductive BranchStatus
  | active | merged | abandoned
  deriving DecidableEq, Repr

structure BranchReference where
  id : String
  name : String
  status : BranchStatus
  reason : Option String := none
  snapshot : Option String := none
  current : Option Bool := none
  deriving DecidableEq, Repr

structure Goal where
  schema_version : Nat
  id : String
  created : String
  updated : String
  current_state : String
  desired_state : String
  verification : Verification
  status : GoalStatus
  progress : Rat
  title : String
  description : String
  tags : List String
  project : String
  priority : Priority
  parent : Option String
  children : List String
  depends_on : List String
  informs : List String
  evolved_from : Option String
  context : GoalContext
  branches : List BranchReference
  snapshots : List String
  created_by : String
  last_touched_by : String
  deriving DecidableEq, Repr

structure CreateGoalInput where
  title : String
  current_state : String
  desired_state : String
  project : String
  description : Option String := none
  tags : Option (List String) := none
  priority : Option Priority := none
  parent : Option String := none
  verification : Option PartialVerification := none
  deriving DecidableEq, Repr

structure UpdateGoalInput where
  title : Option String := none
  current_state : Option String := none
  desired_state : Option String := none
  description : Option String := none
  status : Option GoalStatus := none
  progress : Option Rat := none
  tags : Option (List String) := none
  priority : Option Priority := none
  verification : Option PartialVerification := none
  deriving DecidableEq, Repr

/-! ## Entity model: goal construction (models/goal.ts) -/

/-- `generateGoalId`: `toISOString` with `-`, `:`, `T` removed, first 14
characters, plus a 4-character random suffix; `isoNow` and `rand` are the
hoisted clock and `Math.random` inputs. -/
def generateGoalId (isoNow : String) (rand : String) : String :=
  let timestamp :=
    ((isoNow.toList.filter (fun c => c ≠ '-' ∧ c ≠ ':' ∧ c ≠ 'T')).take 14).asString
  "goal_" ++ timestamp ++ rand

/-- `createGoal(input, createdBy)`; `now` is the hoisted `new Date().toISOString()`
and `idNow`/`idRand` the hoisted inputs of the inner `generateGoalId()` call. -/
def createGoal (input : CreateGoalInput) (createdBy : String)
    (now : String) (idNow : String) (idRand : String) : Goal :=
  { schema_version := 1
    id := generateGoalId idNow idRand
    created := now
    updated := now
    current_state := input.current_state
    desired_state := input.desired_state
    verification :=
      { criteria := ((input.verification.bind (·.criteria)).getD [])
        method := ((input.verification.bind (·.method)).getD .manual)
        test_commands := input.verification.bind (·.test_commands) }
    status := .active
    progress := 0
    title := input.title
    description := input.description.getD ""
    tags := input.tags.getD []
    project := input.project
    priority := input.priority.getD .medium
    parent := input.parent
    children := []
    depends_on := []
    informs := []
    evolved_from := none
    context :=
      { primary_files := []
        related_files := some []
        sessions := []
        agents := []
        learnings := []
        decisions := [] }
    branches :=
      [ { id := "branch_main"
          name := "main"
          status := .active
          current := some true } ]
    snapshots := []
    created_by := createdBy
    last_touched_by := createdBy }

/-- `updateGoal(goal, input, updatedBy)`: spread-merge of the patch over the
goal, then `updated`/`last_touched_by` refreshed and `verification`
shallow-merged when the patch carries one.  `now` is the hoisted clock. -/
def updateGoal (goal : Goal) (input : UpdateGoalInput) (updatedBy : String)
    (now : String) : Goal :=
  { goal with
    title := input.title.getD goal.title
    current_state := input.current_state.getD goal.current_state
    desired_state := input.desired_state.getD goal.desired_state
    description := input.description.getD goal.description
    status := input.status.getD goal.status
    progress := input.progress.getD goal.progress
    tags := input.tags.getD goal.tags
    priority := input.priority.getD goal.priority
    updated := now
    last_touched_by := updatedBy
    verification :=
      match input.verification with
      | none => goal.verification
      | some pv =>
        { criteria := pv.criteria.getD goal.verification.criteria
          method := pv.method.getD goal.verification.method
          test_commands :=
            match pv.test_commands with
            | none => goal.verification.test_commands
            | some t => some t } }

/-- The spec's validity condition on `CreateGoalInput`: the four required
fields are non-blank. -/
def validCreateGoalInput (input : CreateGoalInput) : Prop :=
  input.title ≠ "" ∧ input.current_state ≠ "" ∧
  input.desired_state ≠ "" ∧ input.project ≠ ""

instance (input : CreateGoalInput) : Decidable (validCreateGoalInput input) := by
  unfold validCreateGoalInput; infer_instance

/-! ## Entity model: snapshots (models/snapshot.ts) -/

inductive SnapshotTrigger
  | manual | auto_progress | branch_create | milestone | session_end
  deriving DecidableEq, Repr

/-- A JSON value appearing in a `FieldChange`: the four compared goal fields
are a number (`progress`) and three strings (`status`, `current_state`,
`desired_state`). -/
inductive FieldValue
  | num (q : Rat)
  | str (s : String)
  deriving DecidableEq, Repr

structure FieldChange where
  field : String
  fromVal : Option FieldValue := none
  toVal : Option FieldValue := none
  deriving DecidableEq, Repr

structure Snapshot where
  schema_version : Nat
  id : String
  goal_id : String
  created : String
  trigger : SnapshotTrigger
  current_state : String
  desired_state : String
  progress : Rat
  status : String
  event : String
  summary : String
  changes : List FieldChange
  previous_snapshot : Option String
  branch : String
  session : Option String
  deriving DecidableEq, Repr

/-- `generateSnapshotId`: like `generateGoalId` but with prefix `snap_` and a
2-character random suffix. -/
def generateSnapshotId (isoNow : String) (rand : String) : String :=
  let timestamp :=
    ((isoNow.toList.filter (fun c => c ≠ '-' ∧ c ≠ ':' ∧ c ≠ 'T')).take 14).asString
  "snap_" ++ timestamp ++ rand

/-- `goal.branches.find((b) => b.current)?.id || 'branch_main'` — the goal's
current-flagged branch reference id with JavaScript falsy fallback. -/
def currentBranchIdOf (branches : List BranchReference) : String :=
  match branches.find? (fun b => b.current = some true) with
  | none => "branch_main"
  | some b => if b.id = "" then "branch_main" else b.id

/-- `createSnapshot(goal, event, summary, trigger, changes, session)`;
`idNow`/`idRand` feed the inner `generateSnapshotId()` call and `now` is the
hoisted `created` clock. -/
def createSnapshot (goal : Goal) (event : String) (summary : String)
    (trigger : SnapshotTrigger) (changes : List FieldChange)
    (session : Option String) (idNow : String) (idRand : String)
    (now : String) : Snapshot :=
  let currentBranch := currentBranchIdOf goal.branches
  let previousSnapshot :=
    if goal.snapshots.length > 0 then goal.snapshots.getLast? else none
  { schema_version := 1
    id := generateSnapshotId idNow idRand
    goal_id := goal.id
    created := now
    trigger := trigger
    current_state := goal.current_state
    desired_state := goal.desired_state
    progress := goal.progress
    status := goal.status.toStr
    event := event
    summary := summary
    changes := changes
    previous_snapshot := previousSnapshot
    branch := currentBranch
    session := session }

/-- `computeChanges(before, after)` at its default field set
`['progress', 'status', 'current_state', 'desired_state']`: one `FieldChange`
per field whose serialized value differs. -/
def computeChangesGoal (before after : Goal) : List FieldChange :=
  (if before.progress ≠ after.progress then
    [{ field := "progress", fromVal := some (.num before.progress),
       toVal := some (.num after.progress) }] else []) ++
  (if before.status ≠ after.status then
    [{ field := "status", fromVal := some (.str before.status.toStr),
       toVal := some (.str after.status.toStr) }] else []) ++
  (if before.current_state ≠ after.current_state then
    [{ field := "current_state", fromVal := some (.str before.current_state),
       toVal := some (.str after.current_state) }] else []) ++
  (if before.desired_state ≠ after.desired_state then
    [{ field := "desired_state", fromVal := some (.str before.desired_state),
       toVal := some (.str after.desired_state) }] else [])

/-! ## Entity model: branches (models/branch.ts) -/

structure BranchResolution where
  status : BranchStatus
  reason : Option String := none
  decided : String
  decided_by : String
  deriving DecidableEq, Repr

structure Branch where
  schema_version : Nat
  id : String
  goal_id : String
  created : String
  updated : String
  name : String
  description : String
  status : BranchStatus
  parent_branch : String
  branch_point : String
  current_state : Option String
  progress : Option Rat
  snapshots : List String
  resolution : Option BranchResolution
  merged_to : Option String
  merge_snapshot : Option String
  deriving DecidableEq, Repr

/-- Is the (lower-cased) character in the class `[a-z0-9]`? -/
def isSlugChar (c : Char) : Bool :=
  (decide ('a' ≤ c ∧ c ≤ 'z')) || (decide ('0' ≤ c ∧ c ≤ '9'))

theorem length_dropWhile_le' {α} (p : α → Bool) (l : List α) :
    (l.dropWhile p).length ≤ l.length := by
  induction l with
  | nil => simp [List.dropWhile]
  | cons a as ih =>
    simp only [List.dropWhile]
    cases p a <;> simp
    omega

/-- `name.replace(/[^a-z0-9]+/g, '_')`: every maximal run of characters
outside `[a-z0-9]` collapses to a single underscore. -/
def slugReplace : List Char → List Char
  | [] => []
  | c :: rest =>
    if isSlugChar c then c :: slugReplace rest
    else '_' :: slugReplace (rest.dropWhile (fun d => ¬ isSlugChar d))
  termination_by l => l.length
  decreasing_by
    · simp
    · exact Nat.lt_succ_of_le (length_dropWhile_le' _ _)

/-- `generateBranchId(name)`: lower-cased slug of `name`, truncated to 20
characters, prefixed `branch_`. -/
def generateBranchId (name : String) : String :=
  let slug := ((slugReplace (name.toList.map Char.toLower)).take 20).asString
  "branch_" ++ slug

/-- `createBranch(goal, name, description)`; `now` is the hoisted clock. -/
def createBranch (goal : Goal) (name : String) (description : String)
    (now : String) : Branch :=
  let currentBranch := currentBranchIdOf goal.branches
  let latestSnapshot :=
    if goal.snapshots.length > 0 then goal.snapshots.getLast?.getD "" else ""
  { schema_version := 1
    id := generateBranchId name
    goal_id := goal.id
    created := now
    updated := now
    name := name
    description := description
    status := .active
    parent_branch := currentBranch
    branch_point := latestSnapshot
    current_state := none
    progress := none
    snapshots := []
    resolution := none
    merged_to := none
    merge_snapshot := none }

/-! ## Entity model: projects (models/project.ts) -/

/-- `Record<string, unknown>` configuration payload, modelled as string
key/value pairs (no claim inspects it). -/
structure AgentConfig where
  type : String
  config : List (String × String)
  deriving DecidableEq, Repr

structure Project where
  schema_version : Nat
  id : String
  name : String
  path : String
  created : String
  updated : String
  repo : Option String
  branch : Option String
  aliases : List String
  auto_detect : Bool
  description : String
  active_goals : List String
  paused_goals : List String
  completed_goals : List String
  abandoned_goals : List String
  default_agents : List AgentConfig
  tech_stack : List String
  conventions : List String
  deriving DecidableEq, Repr

/-- The status argument of `addGoalToProject`
(`'active' | 'paused' | 'completed' | 'abandoned'`). -/
inductive ProjectGoalStatus
  | active | paused | completed | abandoned
  deriving DecidableEq, Repr

/-- `addGoalToProject(project, goalId, status)`: filter `goalId` out of all
four status lists, then push it onto the list selected by `status`; `now`
refreshes `updated`. -/
def addGoalToProject (project : Project) (goalId : String)
    (status : ProjectGoalStatus) (now : String) : Project :=
  let base := { project with
    updated := now
    active_goals := project.active_goals.filter (fun id => id ≠ goalId)
    paused_goals := project.paused_goals.filter (fun id => id ≠ goalId)
    completed_goals := project.completed_goals.filter (fun id => id ≠ goalId)
    abandoned_goals := project.abandoned_goals.filter (fun id => id ≠ goalId) }
  match status with
  | .active => { base with active_goals := base.active_goals ++ [goalId] }
  | .paused => { base with paused_goals := base.paused_goals ++ [goalId] }
  | .completed => { base with completed_goals := base.completed_goals ++ [goalId] }
  | .abandoned => { base with abandoned_goals := base.abandoned_goals ++ [goalId] }

/-! ## Service layer: branch operations (storage/goal-service.ts) -/

/-- `switchBranch(goalId, branchId)`, restricted to its effect on the loaded
goal: every branch reference's `current` flag becomes `b.id === branchId`. -/
def switchBranch (goal : Goal) (branchId : String) : Goal :=
  { goal with
    branches := goal.branches.map (fun b => { b with current := some (b.id = branchId) }) }

/-- `createGoalBranch(goalId, name, description)`, restricted to its effect on
the loaded goal: push the branch-point snapshot id onto `snapshots`, then push
a reference `{id, name, status: 'active'}` for the branch created by
`createBranch` onto `branches`. -/
def createGoalBranchGoal (goal : Goal) (name : String) (description : String)
    (snapIdNow snapIdRand snapNow branchNow : String) : Goal :=
  let branchSnapshot := createSnapshot goal ("Branch created: " ++ name)
    ("Starting exploration: " ++ (if description = "" then name else description))
    .branch_create [] none snapIdNow snapIdRand snapNow
  let goal1 := { goal with snapshots := goal.snapshots ++ [branchSnapshot.id] }
  let branch := createBranch goal1 name description branchNow
  { goal1 with
    branches := goal1.branches ++
      [{ id := branch.id, name := branch.name, status := .active }] }

/-- Exactly one branch reference in the list has `current = true`. -/
def exactlyOneCurrent (branches : List BranchReference) : Prop :=
  (branches.countP (fun b => b.current = some true)) = 1

instance (branches : List BranchReference) :
    Decidable (exactlyOneCurrent branches) := by
  unfold exactlyOneCurrent; infer_instance

/-! ## Service layer: goal update path (storage/goal-service.ts) -/

/-- `generateSnapshotEvent(input)` (storage/goal-service.ts helpers). -/
def generateSnapshotEvent (input : UpdateGoalInput) : String :=
  if input.status = some .completed then "Goal completed"
  else if input.status = some .abandoned then "Goal abandoned"
  else if input.status = some .paused then "Goal paused"
  else if input.status = some .active then "Goal resumed"
  else if input.progress.isSome then "Progress updated"
  else "Goal updated"

/-- `Math.round(q * 100)` for the percent lines of
`generateSnapshotSummary`. -/
def roundPct (q : Rat) : Int := (q * 100 + 1/2).floor

/-- `generateSnapshotSummary(before, after, changes)`. -/
def generateSnapshotSummary (before after : Goal)
    (changes : List FieldChange) : String :=
  let lines := changes.map (fun change =>
    if change.field = "progress" then
      "Progress: " ++ toString (roundPct before.progress) ++ "% → " ++
        toString (roundPct after.progress) ++ "%"
    else if change.field = "status" then
      "Status: " ++ before.status.toStr ++ " → " ++ after.status.toStr
    else change.field ++ " updated")
  String.intercalate "\n" lines

/-- `update(goalId, input, options)`, restricted to its effect on the loaded
goal (the persisted value): apply `updateGoal`, and when `autoSnapshot` is set
and the patch carries `progress` or `status`, compute the field changes and —
when non-empty — append an `auto_progress` snapshot id to `snapshots`. -/
def serviceUpdateGoal (goal : Goal) (input : UpdateGoalInput)
    (updatedBy : String) (autoSnapshot : Bool) (snapshotEvent : Option String)
    (now snapIdNow snapIdRand snapNow : String) : Goal :=
  let updatedGoal := updateGoal goal input updatedBy now
  if autoSnapshot ∧ (input.progress.isSome ∨ input.status.isSome) then
    let changes := computeChangesGoal goal updatedGoal
    if changes.length > 0 then
      let event :=
        match snapshotEvent with
        | none => generateSnapshotEvent input
        | some s => if s = "" then generateSnapshotEvent input else s
      let summary := generateSnapshotSummary goal updatedGoal changes
      let snapshot := createSnapshot updatedGoal event summary .auto_progress
        changes none snapIdNow snapIdRand snapNow
      { updatedGoal with snapshots := updatedGoal.snapshots ++ [snapshot.id] }
    else updatedGoal
  else updatedGoal

/-- `setProgress(goalId, progress, updatedBy)`, restricted to its effect on the
loaded goal: clamp with `Math.max(0, Math.min(1, progress))` and run the update
path with patch `{progress: clamped}` and default options. -/
def setProgressGoal (goal : Goal) (progress : Rat) (updatedBy : String)
    (now snapIdNow snapIdRand snapNow : String) : Goal :=
  let clampedProgress := max 0 (min 1 progress)
  serviceUpdateGoal goal { progress := some clampedProgress } updatedBy
    true none now snapIdNow snapIdRand snapNow

/-! ## Record store: goal files (storage/yaml-store.ts)

The `active`/`archived` directories are modelled as association lists from
goal id to file content (a directory holds at most one file per name, which
the list operations below respect). -/

structure GoalStore where
  active : List (String × Goal)
  archived : List (String × Goal)
  deriving DecidableEq, Repr

/-- `existsSync`/`readYAMLFile` on a directory: first entry with the name. -/
def dirLookup {α} (dir : List (String × α)) (name : String) : Option α :=
  (dir.find? (fun e => e.1 = name)).map (·.2)

/-- Remove the file with the given name (the effect of `renameSync` on the
source directory). -/
def dirRemove {α} (dir : List (String × α)) (name : String) : List (String × α) :=
  dir.filter (fun e => e.1 ≠ name)

/-- Write a file, overwriting any existing one with that name. -/
def dirWrite {α} (dir : List (String × α)) (name : String) (v : α) :
    List (String × α) :=
  dirRemove dir name ++ [(name, v)]

/-- `saveGoal(goal)`: upsert into the active area. -/
def saveGoal (st : GoalStore) (goal : Goal) : GoalStore :=
  { st with active := dirWrite st.active goal.id goal }

/-- `loadGoal(goalId)`: check the active area first, then the archived one. -/
def loadGoal (st : GoalStore) (goalId : String) : Option Goal :=
  match dirLookup st.active goalId with
  | some g => some g
  | none => dirLookup st.archived goalId

/-- `archiveGoal(goalId)`: `false` when no active file exists; otherwise
`renameSync` the active file into the archived area and return `true`. -/
def archiveGoal (st : GoalStore) (goalId : String) : Bool × GoalStore :=
  match dirLookup st.active goalId with
  | none => (false, st)
  | some g =>
    (true,
      { st with
        active := dirRemove st.active goalId
        archived := dirWrite st.archived goalId g })

/-- `listGoals(includeArchived)`: names of the active files, extended with the
archived ones on request. -/
def listGoals (st : GoalStore) (includeArchived : Bool) : List String :=
  let activeFiles := st.active.map (·.1)
  if includeArchived then activeFiles ++ st.archived.map (·.1) else activeFiles

/-! ## Index model and builder (models/index.ts, storage/index-builder.ts) -/

structure GoalIndexEntry where
  title : String
  status : String
  progress : Rat
  project : String
  parent : Option String
  children : List String
  tags : List String
  updated : String
  deriving DecidableEq, Repr

inductive EdgeType
  | parent | child | depends_on | informs | evolved_from
  deriving DecidableEq, Repr

/-- `GraphEdge` (`from` is a Lean keyword, so the two endpoint fields are
named `fromId`/`toId`). -/
structure GraphEdge where
  fromId : String
  toId : String
  type : EdgeType
  deriving DecidableEq, Repr

structure IndexGraph where
  edges : List GraphEdge
  deriving DecidableEq, Repr

structure GoalIndex where
  schema_version : Nat
  generated : String
  goals : List (String × GoalIndexEntry)
  by_status : List (String × List String)
  by_project : List (String × List String)
  by_tag : List (String × List String)
  graph : IndexGraph
  deriving DecidableEq, Repr

/-- `createEmptyIndex()`; `generated` is the hoisted clock. -/
def createEmptyIndex (generated : String) : GoalIndex :=
  { schema_version := 1
    generated := generated
    goals := []
    by_status := []
    by_project := []
    by_tag := []
    graph := { edges := [] } }

/-- JavaScript record assignment `m[k] = v`: overwrite in place when the key
exists, otherwise append (insertion order preserved). -/
def recSet {α} (m : List (String × α)) (k : String) (v : α) :
    List (String × α) :=
  match m with
  | [] => [(k, v)]
  | (k', v') :: rest =>
    if k' = k then (k, v) :: rest else (k', v') :: recSet rest k v

/-- `if (!m[k]) m[k] = []; m[k].push(v)` on a record of arrays. -/
def recPush (m : List (String × List String)) (k : String) (v : String) :
    List (String × List String) :=
  match m with
  | [] => [(k, [v])]
  | (k', vs) :: rest =>
    if k' = k then (k', vs ++ [v]) :: rest else (k', vs) :: recPush rest k v

/-- One iteration of the `for (const goal of goals)` loop of `buildIndex`. -/
def addGoalToIndex (index : GoalIndex) (goal : Goal) : GoalIndex :=
  let entry : GoalIndexEntry :=
    { title := goal.title
      status := goal.status.toStr
      progress := goal.progress
      project := goal.project
      parent := goal.parent
      children := goal.children
      tags := goal.tags
      updated := goal.updated }
  { index with
    goals := recSet index.goals goal.id entry
    by_status := recPush index.by_status goal.status.toStr goal.id
    by_project := recPush index.by_project goal.project goal.id
    by_tag := goal.tags.foldl (fun m tag => recPush m tag goal.id) index.by_tag
    graph :=
      { edges := index.graph.edges ++
          (match goal.parent with
           | some p => [{ fromId := p, toId := goal.id, type := .parent }]
           | none => []) ++
          goal.children.map
            (fun childId => { fromId := goal.id, toId := childId, type := .child }) ++
          goal.depends_on.map
            (fun depId => { fromId := goal.id, toId := depId, type := .depends_on }) ++
          goal.informs.map
            (fun informsId => { fromId := goal.id, toId := informsId, type := .informs }) ++
          (match goal.evolved_from with
           | some e => [{ fromId := e, toId := goal.id, type := .evolved_from }]
           | none => []) } }

/-- `buildIndex(goals)`: a single pass over the goal list starting from the
empty index; `generated` is the hoisted clock of the `new Date()` call. -/
def buildIndex (goals : List Goal) (generated : String) : GoalIndex :=
  goals.foldl addGoalToIndex (createEmptyIndex generated)

/-! ## Query engine: ancestor walk (storage/index-builder.ts) -/

/-- `getParentGoal(goalId)`: the denormalized `parent` field of the goal's
summary entry (`index.goals[goalId]?.parent`). -/
def getParentGoal (index : GoalIndex) (goalId : String) : Option String :=
  (dirLookup index.goals goalId).bind (·.parent)

/-- The `while (current)` loop of `getAncestors`, with explicit fuel: `none`
is returned when the fuel is exhausted before the walk reaches a goal with no
parent (the source loop would still be running). -/
def ancestorsLoop (index : GoalIndex) : Nat → Option String → Option (List String)
  | _, none => some []
  | 0, some _ => none
  | fuel + 1, some current =>
    (ancestorsLoop index fuel (getParentGoal index current)).map (current :: ·)

/-- `getAncestors(goalId)` with explicit fuel. -/
def getAncestorsFuel (index : GoalIndex) (fuel : Nat) (goalId : String) :
    Option (List String) :=
  ancestorsLoop index fuel (getParentGoal index goalId)

/-- The `n`-fold parent iterate starting at `goalId` (`iterParent 0 = goalId`
itself). -/
def iterParent (index : GoalIndex) (goalId : String) : Nat → Option String
  | 0 => some goalId
  | n + 1 => (iterParent index goalId n).bind (getParentGoal index)

/-- `l` is exactly the chain of parents the walk visits from `start` until a
goal with no parent. -/
def isParentChain (index : GoalIndex) : Option String → List String → Prop
  | none, [] => True
  | some c, c' :: rest => c = c' ∧ isParentChain index (getParentGoal index c) rest
  | none, _ :: _ => False
  | some _, [] => False

/-! ## Theorems -/

theorem generateGoalId_ne_empty (isoNow rand : String) :
    generateGoalId isoNow rand ≠ "" := by
  intro h
  have hd := congrArg String.data h
  simp [generateGoalId, String.data_append] at hd

/-- The single branch reference `createGoal` installs. -/
def mainBranchRef : BranchReference :=
  { id := "branch_main", name := "main", status := .active,
    current := some true }

/-- A `CreateGoalInput` with a blank required `title` (concrete test input). -/
def blankTitleInput : CreateGoalInput :=
  { title := "", current_state := "x", desired_state := "y", project := "/p" }

/-- A fully valid concrete `CreateGoalInput`. -/
def sampleInput : CreateGoalInput :=
  { title := "T", current_state := "c", desired_state := "d", project := "/p" }

/-- A concrete goal produced by `createGoal` on `sampleInput`. -/
def sampleGoal : Goal :=
  createGoal sampleInput "main" "2025-01-01T00:00:00.000Z"
    "2025-01-01T00:00:00.000Z" "abcd"

/-- Claim C1 (counterexample): on a `CreateGoalInput` whose required `title` is
blank, `createGoal` does not fail — it produces a goal carrying the blank
title verbatim, with `status = active` and `progress = 0`.  No
`ValidationError` (or any other failure channel) exists in the model layer. -/
theorem createGoal_blank_title_produces_goal :
    (createGoal blankTitleInput "main" "2025-01-01T00:00:00.000Z"
        "2025-01-01T00:00:00.000Z" "abcd").title = "" ∧
    (createGoal blankTitleInput "main" "2025-01-01T00:00:00.000Z"
        "2025-01-01T00:00:00.000Z" "abcd").status = GoalStatus.active ∧
    (createGoal blankTitleInput "main" "2025-01-01T00:00:00.000Z"
        "2025-01-01T00:00:00.000Z" "abcd").progress = 0 :=
  ⟨rfl, rfl, rfl⟩

/-- Claim C1 (amended): `createGoal` performs no validation at all: for every
`CreateGoalInput` with a blank required field it still produces a goal,
copying the blank fields verbatim, with `status = active` and `progress = 0`;
nothing is rejected at the Entity Model boundary. -/
theorem createGoal_no_validation_on_blank_fields
    (input : CreateGoalInput) (createdBy now idNow idRand : String)
    (h : input.title = "" ∨ input.current_state = "" ∨
         input.desired_state = "" ∨ input.project = "") :
    (createGoal input createdBy now idNow idRand).title = input.title ∧
    (createGoal input createdBy now idNow idRand).current_state =
      input.current_state ∧
    (createGoal input createdBy now idNow idRand).desired_state =
      input.desired_state ∧
    (createGoal input createdBy now idNow idRand).project = input.project ∧
    (createGoal input createdBy now idNow idRand).status = GoalStatus.active ∧
    (createGoal input createdBy now idNow idRand).progress = 0 :=
  ⟨rfl, rfl, rfl, rfl, rfl, rfl⟩

theorem createGoal_no_validation_witness :
    (createGoal blankTitleInput "main" "t" "t" "r").title = "" :=
  (createGoal_no_validation_on_blank_fields blankTitleInput
    "main" "t" "t" "r" (Or.inl rfl)).1

/-- Claim C4: for every valid `CreateGoalInput`, `createGoal` produces a goal
with `progress = 0`, `status = active`, a non-empty id, and exactly one branch
reference with `current = true`, whose id is `branch_main`. -/
theorem createGoal_valid_defaults
    (input : CreateGoalInput) (createdBy now idNow idRand : String)
    (h : validCreateGoalInput input) :
    (createGoal input createdBy now idNow idRand).progress = 0 ∧
    (createGoal input createdBy now idNow idRand).status = GoalStatus.active ∧
    (createGoal input createdBy now idNow idRand).id ≠ "" ∧
    exactlyOneCurrent (createGoal input createdBy now idNow idRand).branches ∧
    ∀ b ∈ (createGoal input createdBy now idNow idRand).branches,
      b.current = some true → b.id = "branch_main" := by
  refine ⟨rfl, rfl, generateGoalId_ne_empty idNow idRand, ?_, ?_⟩
  · show exactlyOneCurrent [mainBranchRef]
    decide
  · intro b hb _
    have hb' : b = mainBranchRef := List.mem_singleton.mp hb
    rw [hb']
    rfl

theorem createGoal_valid_defaults_witness :
    (createGoal sampleInput "main" "t" "t" "r").progress = 0 :=
  (createGoal_valid_defaults sampleInput "main" "t" "t" "r" (by decide)).1

/-- Claim C2 (counterexample): switching to a branch id that matches no
reference in the goal's list clears the `current` flag on every reference, so
the freshly created goal (which satisfies the invariant) leaves `switchBranch`
with zero current references. -/
theorem switchBranch_missing_id_breaks_invariant :
    exactlyOneCurrent sampleGoal.branches ∧
    ¬ exactlyOneCurrent (switchBranch sampleGoal "branch_nope").branches := by
  constructor
  · decide
  · decide

/-- Claim C2 (amended): `createGoal` establishes the one-current-branch
invariant and `createGoalBranch` preserves it unconditionally (the pushed
reference carries no `current` flag); `switchBranch` re-establishes it — with
the current reference being the one whose id is `branchId` — provided
`branchId` matches exactly one reference id in the goal's list (when it
matches none, every flag is cleared and the invariant breaks, as the
counterexample shows; when it matches several, they all become current). -/
theorem branch_current_invariant :
    (∀ (input : CreateGoalInput) (createdBy now idNow idRand : String),
      exactlyOneCurrent (createGoal input createdBy now idNow idRand).branches) ∧
    (∀ (goal : Goal) (name description s1 s2 s3 s4 : String),
      exactlyOneCurrent goal.branches →
      exactlyOneCurrent
        (createGoalBranchGoal goal name description s1 s2 s3 s4).branches) ∧
    (∀ (goal : Goal) (branchId : String),
      goal.branches.countP (fun b => b.id = branchId) = 1 →
      exactlyOneCurrent (switchBranch goal branchId).branches ∧
      ∀ b ∈ (switchBranch goal branchId).branches,
        b.current = some true → b.id = branchId) := by
  refine ⟨?_, ?_, ?_⟩
  · intro input createdBy now idNow idRand
    show exactlyOneCurrent [mainBranchRef]
    decide
  · intro goal name description s1 s2 s3 s4 h
    unfold exactlyOneCurrent at h ⊢
    simp only [createGoalBranchGoal, List.countP_append, List.countP_cons,
      List.countP_nil]
    simpa using h
  · intro goal branchId h
    constructor
    · unfold exactlyOneCurrent switchBranch
      simp only [List.countP_map]
      rw [← h]
      apply List.countP_congr
      intro b _
      simp [Function.comp]
    · intro b hb hcur
      unfold switchBranch at hb
      simp only [List.mem_map] at hb
      obtain ⟨a, _, rfl⟩ := hb
      simp only at hcur
      have : (decide (a.id = branchId)) = true := by
        simpa using hcur
      simpa using this

theorem branch_current_invariant_witness :
    exactlyOneCurrent (switchBranch sampleGoal "branch_main").branches :=
  ((branch_current_invariant.2.2 sampleGoal "branch_main") (by decide)).1

theorem addGoalToIndex_generated (idx : GoalIndex) (t : String) (g : Goal) :
    addGoalToIndex { idx with generated := t } g =
      { addGoalToIndex idx g with generated := t } :=
  rfl

theorem foldl_addGoalToIndex_generated (gs : List Goal) (idx : GoalIndex)
    (t : String) :
    gs.foldl addGoalToIndex { idx with generated := t } =
      { gs.foldl addGoalToIndex idx with generated := t } := by
  induction gs generalizing idx with
  | nil => rfl
  | cons g gs ih =>
    simp only [List.foldl_cons, addGoalToIndex_generated, ih]

/-- Claim C3: `buildIndex` is deterministic: two runs on the same goal list
(differing only in the wall-clock instant, i.e. the hoisted `generated`
timestamp) produce identical `goals` maps, `by_status`/`by_project`/`by_tag`
groupings and graph edge lists, in identical order. -/
theorem buildIndex_deterministic (goals : List Goal) (t1 t2 : String) :
    (buildIndex goals t1).goals = (buildIndex goals t2).goals ∧
    (buildIndex goals t1).by_status = (buildIndex goals t2).by_status ∧
    (buildIndex goals t1).by_project = (buildIndex goals t2).by_project ∧
    (buildIndex goals t1).by_tag = (buildIndex goals t2).by_tag ∧
    (buildIndex goals t1).graph = (buildIndex goals t2).graph := by
  have key : buildIndex goals t1 =
      { buildIndex goals t2 with generated := t1 } := by
    unfold buildIndex
    have h1 : createEmptyIndex t1 =
        { createEmptyIndex t2 with generated := t1 } := rfl
    rw [h1, foldl_addGoalToIndex_generated]
  rw [key]
  exact ⟨rfl, rfl, rfl, rfl, rfl⟩

/-- Claim C5: snapshot chaining.  A snapshot of a goal with no snapshots has
`previous_snapshot = none`; with a non-empty snapshot list it links to the
last listed id (so after appending a first snapshot's id, a second snapshot
links back to the first); and its `branch` is the id of the current-flagged
branch reference, defaulting to `branch_main`. -/
theorem createSnapshot_chaining
    (goal : Goal) (event summary event2 summary2 : String)
    (trigger trigger2 : SnapshotTrigger) (changes changes2 : List FieldChange)
    (session session2 : Option String) (iN iR now iN2 iR2 now2 : String) :
    (goal.snapshots = [] →
      (createSnapshot goal event summary trigger changes session
        iN iR now).previous_snapshot = none) ∧
    (∀ l x, goal.snapshots = l ++ [x] →
      (createSnapshot goal event summary trigger changes session
        iN iR now).previous_snapshot = some x) ∧
    ((createSnapshot
        { goal with snapshots := goal.snapshots ++
            [(createSnapshot goal event summary trigger changes session
                iN iR now).id] }
        event2 summary2 trigger2 changes2 session2
        iN2 iR2 now2).previous_snapshot =
      some (createSnapshot goal event summary trigger changes session
        iN iR now).id) ∧
    ((goal.branches.find? (fun b => b.current = some true) = none →
      (createSnapshot goal event summary trigger changes session
        iN iR now).branch = "branch_main") ∧
     (∀ b, goal.branches.find? (fun b => b.current = some true) = some b →
      b.id ≠ "" →
      (createSnapshot goal event summary trigger changes session
        iN iR now).branch = b.id)) := by
  refine ⟨?_, ?_, ?_, ?_, ?_⟩
  · intro h
    simp [createSnapshot, h]
  · intro l x h
    simp [createSnapshot, h, List.getLast?_concat]
  · simp [createSnapshot, List.getLast?_concat]
  · intro h
    simp [createSnapshot, currentBranchIdOf, h]
  · intro b hfind hid
    simp [createSnapshot, currentBranchIdOf, hfind, hid]

theorem createSnapshot_chaining_witness :
    (createSnapshot sampleGoal "e" "s" SnapshotTrigger.manual [] none
      "t" "xy" "t").previous_snapshot = none :=
  (createSnapshot_chaining sampleGoal "e" "s" "e2" "s2" .manual .manual [] []
    none none "t" "xy" "t" "t" "zz" "t").1 rfl

theorem serviceUpdateGoal_progress (goal : Goal) (input : UpdateGoalInput)
    (updatedBy : String) (autoSnapshot : Bool) (snapshotEvent : Option String)
    (now snapIdNow snapIdRand snapNow : String) :
    (serviceUpdateGoal goal input updatedBy autoSnapshot snapshotEvent
      now snapIdNow snapIdRand snapNow).progress =
    (updateGoal goal input updatedBy now).progress := by
  by_cases h1 : autoSnapshot ∧ (input.progress.isSome ∨ input.status.isSome)
  · by_cases h2 :
        (computeChangesGoal goal (updateGoal goal input updatedBy now)).length > 0
    · simp [serviceUpdateGoal, h1, h2]
    · simp [serviceUpdateGoal, h1, h2]
  · simp [serviceUpdateGoal, h1]

/-- Claim C6 (counterexample): `updateGoal` does not clamp: patching a goal
whose progress is `0` with `progress = 2` yields a goal whose progress is `2`,
outside `[0, 1]`. -/
theorem updateGoal_progress_unclamped :
    (updateGoal sampleGoal { progress := some 2 } "main" "t").progress = 2 ∧
    ¬ (updateGoal sampleGoal { progress := some 2 } "main" "t").progress ≤ 1 := by
  constructor
  · rfl
  · decide

/-- Claim C6 (amended): `setProgress` clamps its input (`-0.3` and `1.7`
persist as `0` and `1`, `0.5` persists unchanged) and always yields progress
in `[0, 1]`; `createGoal` yields progress `0`; `updateGoal` applies a
`progress` patch unclamped, so it keeps progress within `[0, 1]` only when
the patch's progress value, when present, already lies in `[0, 1]`. -/
theorem progress_invariant :
    (∀ (goal : Goal) (updatedBy now a b c : String),
      (setProgressGoal goal (-0.3) updatedBy now a b c).progress = 0 ∧
      (setProgressGoal goal (1.7) updatedBy now a b c).progress = 1 ∧
      (setProgressGoal goal (0.5) updatedBy now a b c).progress = 0.5) ∧
    (∀ (input : CreateGoalInput) (createdBy now idNow idRand : String),
      0 ≤ (createGoal input createdBy now idNow idRand).progress ∧
      (createGoal input createdBy now idNow idRand).progress ≤ 1) ∧
    (∀ (goal : Goal) (p : Rat) (updatedBy now a b c : String),
      0 ≤ (setProgressGoal goal p updatedBy now a b c).progress ∧
      (setProgressGoal goal p updatedBy now a b c).progress ≤ 1) ∧
    (∀ (goal : Goal) (input : UpdateGoalInput) (updatedBy now : String),
      0 ≤ goal.progress → goal.progress ≤ 1 →
      (∀ q, input.progress = some q → 0 ≤ q ∧ q ≤ 1) →
      0 ≤ (updateGoal goal input updatedBy now).progress ∧
      (updateGoal goal input updatedBy now).progress ≤ 1) := by
  have hset : ∀ (goal : Goal) (p : Rat) (updatedBy now a b c : String),
      (setProgressGoal goal p updatedBy now a b c).progress =
        max 0 (min 1 p) := by
    intro goal p updatedBy now a b c
    unfold setProgressGoal
    rw [serviceUpdateGoal_progress]
    rfl
  refine ⟨?_, ?_, ?_, ?_⟩
  · intro goal updatedBy now a b c
    refine ⟨?_, ?_, ?_⟩ <;> rw [hset] <;> norm_num
  · intro input createdBy now idNow idRand
    refine ⟨le_refl 0, ?_⟩
    show (0 : Rat) ≤ 1
    norm_num
  · intro goal p updatedBy now a b c
    rw [hset]
    constructor
    · exact le_max_left 0 _
    · exact max_le (by norm_num) (min_le_left 1 p)
  · intro goal input updatedBy now h0 h1 hq
    cases hp : input.progress with
    | none =>
      have : (updateGoal goal input updatedBy now).progress = goal.progress := by
        simp [updateGoal, hp]
      rw [this]
      exact ⟨h0, h1⟩
    | some q =>
      have : (updateGoal goal input updatedBy now).progress = q := by
        simp [updateGoal, hp]
      rw [this]
      exact hq q hp

theorem progress_invariant_witness :
    (setProgressGoal sampleGoal (-0.3) "main" "t" "t" "r" "t").progress = 0 ∧
    0 ≤ (updateGoal sampleGoal { progress := some 0.5 } "main" "t").progress ∧
    (updateGoal sampleGoal { progress := some 0.5 } "main" "t").progress ≤ 1 := by
  refine ⟨(progress_invariant.1 sampleGoal "main" "t" "t" "r" "t").1, ?_, ?_⟩
  · exact (progress_invariant.2.2.2 sampleGoal { progress := some 0.5 }
      "main" "t" (le_refl 0) (by show (0 : Rat) ≤ 1; norm_num)
      (by intro q hq; cases hq; norm_num)).1
  · exact (progress_invariant.2.2.2 sampleGoal { progress := some 0.5 }
      "main" "t" (le_refl 0) (by show (0 : Rat) ≤ 1; norm_num)
      (by intro q hq; cases hq; norm_num)).2

/-- The status list `addGoalToProject` targets for a given `status`. -/
def projList (p : Project) : ProjectGoalStatus → List String
  | .active => p.active_goals
  | .paused => p.paused_goals
  | .completed => p.completed_goals
  | .abandoned => p.abandoned_goals

theorem count_filter_ne_self (l : List String) (g : String) :
    (l.filter (fun id => !decide (id = g))).count g = 0 := by
  rw [List.count_eq_zero]
  intro hmem
  have h := List.of_mem_filter hmem
  simp at h

theorem filter_ne_idem (l : List String) (g : String) :
    ((l.filter (fun id => !decide (id = g))).filter
        (fun id => !decide (id = g))) =
      l.filter (fun id => !decide (id = g)) := by
  apply List.filter_eq_self.mpr
  intro a ha
  exact (List.mem_filter.mp ha).2

/-- Claim C7: `addGoalToProject` puts `goalId` exactly once in the list
matching `status` and removes it from every other list (so it appears in
exactly one of the four lists regardless of how many times the call is
repeated), and re-applying the call with the same `(goalId, status)` is
idempotent on the project record (modulo the refreshed `updated` stamp, which
both sides take from the last call). -/
theorem addGoalToProject_idempotent :
    (∀ (p : Project) (g : String) (s : ProjectGoalStatus) (now : String),
      (projList (addGoalToProject p g s now) s).count g = 1) ∧
    (∀ (p : Project) (g : String) (s s' : ProjectGoalStatus) (now : String),
      s' ≠ s → (projList (addGoalToProject p g s now) s').count g = 0) ∧
    (∀ (p : Project) (g : String) (s : ProjectGoalStatus) (now now' : String),
      addGoalToProject (addGoalToProject p g s now) g s now' =
        addGoalToProject p g s now') := by
  refine ⟨?_, ?_, ?_⟩
  · intro p g s now
    cases s <;>
      simp [addGoalToProject, projList, List.count_append,
        count_filter_ne_self, List.count_singleton]
  · intro p g s s' now hne
    cases s <;> cases s' <;> simp_all [addGoalToProject, projList,
      count_filter_ne_self]
  · intro p g s now now'
    cases s <;>
      simp [addGoalToProject, List.filter_append, filter_ne_idem,
        List.filter_cons]

/-- A concrete freshly registered project (no goals yet). -/
def createEmptyProjectSample : Project :=
  { schema_version := 1, id := "proj_x", name := "x", path := "/p",
    created := "t", updated := "t", repo := none, branch := some "main",
    aliases := [], auto_detect := true, description := "",
    active_goals := [], paused_goals := [], completed_goals := [],
    abandoned_goals := [], default_agents := [], tech_stack := [],
    conventions := [] }

theorem addGoalToProject_idempotent_witness :
    (projList (addGoalToProject
      (createEmptyProjectSample) "goal_1" ProjectGoalStatus.active "t")
      ProjectGoalStatus.paused).count "goal_1" = 0 :=
  addGoalToProject_idempotent.2.1 createEmptyProjectSample "goal_1"
    ProjectGoalStatus.active ProjectGoalStatus.paused "t" (by decide)

theorem dirLookup_dirRemove_self {α} (d : List (String × α)) (k : String) :
    dirLookup (dirRemove d k) k = none := by
  induction d with
  | nil => rfl
  | cons e rest ih =>
    by_cases h : e.1 = k
    · simpa [dirRemove, List.filter_cons, h] using ih
    · simpa [dirRemove, dirLookup, List.find?_cons, h] using ih

theorem dirLookup_dirWrite_self {α} (d : List (String × α)) (k : String)
    (v : α) : dirLookup (dirWrite d k v) k = some v := by
  unfold dirWrite
  induction d with
  | nil => simp [dirLookup, dirRemove, List.find?_cons]
  | cons e rest ih =>
    by_cases h : e.1 = k
    · simpa [dirRemove, List.filter_cons, h] using ih
    · simpa [dirRemove, dirLookup, List.find?_cons, h] using ih

theorem not_mem_map_fst_dirRemove {α} (d : List (String × α)) (k : String) :
    k ∉ (dirRemove d k).map (·.1) := by
  intro hmem
  obtain ⟨e, he, hk⟩ := List.mem_map.mp hmem
  have := (List.mem_filter.mp he).2
  simp [hk] at this

/-- Claim C8: archival semantics.  `archiveGoal` on a goal present only in the
archived area returns `false` and leaves the store unchanged; on a goal
present in the active area it returns `true`, after which `loadGoal` still
finds the goal (via the archived fallback) while `listGoals` without archived
entries no longer contains its id. -/
theorem archiveGoal_semantics :
    (∀ (st : GoalStore) (goalId : String) (g : Goal),
      dirLookup st.active goalId = none →
      dirLookup st.archived goalId = some g →
      archiveGoal st goalId = (false, st)) ∧
    (∀ (st : GoalStore) (goalId : String) (g : Goal),
      dirLookup st.active goalId = some g →
      (archiveGoal st goalId).1 = true ∧
      loadGoal (archiveGoal st goalId).2 goalId = some g ∧
      goalId ∉ listGoals (archiveGoal st goalId).2 false) := by
  constructor
  · intro st goalId g hact harc
    unfold archiveGoal
    rw [hact]
  · intro st goalId g hact
    unfold archiveGoal
    rw [hact]
    refine ⟨rfl, ?_, ?_⟩
    · unfold loadGoal
      simp only [dirLookup_dirRemove_self, dirLookup_dirWrite_self]
    · simpa [listGoals] using not_mem_map_fst_dirRemove st.active goalId

theorem archiveGoal_semantics_witness :
    (archiveGoal { active := [("a", sampleGoal)], archived := [] } "a").1 =
      true :=
  (archiveGoal_semantics.2 { active := [("a", sampleGoal)], archived := [] }
    "a" sampleGoal rfl).1

/-- Claim C9 (counterexample): on a goal with no snapshots (as `createGoal`
produces), `createBranch` sets `branch_point` to the empty string, which
references no snapshot of the goal. -/
theorem createBranch_empty_snapshots_dangling :
    (createBranch sampleGoal "Try SSE" "" "t").branch_point = "" ∧
    (createBranch sampleGoal "Try SSE" "" "t").branch_point ∉
      sampleGoal.snapshots := by
  constructor
  · rfl
  · decide

/-- Claim C9 (amended): `createBranch` returns a branch with `parent_branch`
the id of the goal's current-flagged branch reference (default
`branch_main`), an empty snapshot list, `status = active`, and
`branch_point` the goal's latest snapshot id when the goal has snapshots —
in which case `branch_point` is a member of the goal's snapshot list; when
the goal has no snapshots, `branch_point` is the empty string and references
no snapshot. -/
theorem createBranch_properties
    (goal : Goal) (name description now : String) :
    ((createBranch goal name description now).snapshots = [] ∧
     (createBranch goal name description now).status = BranchStatus.active) ∧
    (goal.branches.find? (fun b => b.current = some true) = none →
      (createBranch goal name description now).parent_branch =
        "branch_main") ∧
    (∀ r, goal.branches.find? (fun b => b.current = some true) = some r →
      r.id ≠ "" →
      (createBranch goal name description now).parent_branch = r.id) ∧
    (goal.snapshots = [] →
      (createBranch goal name description now).branch_point = "") ∧
    (∀ l x, goal.snapshots = l ++ [x] →
      (createBranch goal name description now).branch_point = x ∧
      (createBranch goal name description now).branch_point ∈
        goal.snapshots) := by
  refine ⟨⟨rfl, rfl⟩, ?_, ?_, ?_, ?_⟩
  · intro h
    simp [createBranch, currentBranchIdOf, h]
  · intro r hfind hid
    simp [createBranch, currentBranchIdOf, hfind, hid]
  · intro h
    simp [createBranch, h]
  · intro l x h
    constructor
    · simp [createBranch, h, List.getLast?_concat]
    · have hbp : (createBranch goal name description now).branch_point = x := by
        simp [createBranch, h, List.getLast?_concat]
      rw [hbp, h]
      exact List.mem_append_right l (List.mem_singleton.mpr rfl)

theorem createBranch_properties_witness :
    (createBranch sampleGoal "Try SSE" "" "t").parent_branch =
      "branch_main" ∧
    (createBranch { sampleGoal with snapshots := ["snap_1"] } "x" "" "t").branch_point
      = "snap_1" := by
  constructor
  · exact (createBranch_properties sampleGoal "Try SSE" "" "t").2.2.1
      mainBranchRef rfl (by decide)
  · exact ((createBranch_properties
      { sampleGoal with snapshots := ["snap_1"] } "x" "" "t").2.2.2.2
      [] "snap_1" rfl).1

/-- The parent iterate starting from an arbitrary loop cursor. -/
def iterFrom (index : GoalIndex) (c : Option String) : Nat → Option String
  | 0 => c
  | n + 1 => (iterFrom index c n).bind (getParentGoal index)

theorem iterParent_eq_iterFrom (index : GoalIndex) (goalId : String)
    (n : Nat) :
    iterParent index goalId n = iterFrom index (some goalId) n := by
  induction n with
  | zero => rfl
  | succ n ih => simp [iterParent, iterFrom, ih]

theorem iterFrom_succ_front (index : GoalIndex) (c : Option String)
    (n : Nat) :
    iterFrom index c (n + 1) =
      iterFrom index (c.bind (getParentGoal index)) n := by
  induction n with
  | zero => rfl
  | succ n ih =>
    show (iterFrom index c (n + 1)).bind (getParentGoal index) = _
    rw [ih]
    rfl

theorem ancestorsLoop_total (index : GoalIndex) :
    ∀ (fuel : Nat) (c : Option String) (n : Nat), n ≤ fuel →
      iterFrom index c n = none →
      ∃ l, ancestorsLoop index fuel c = some l ∧ isParentChain index c l := by
  intro fuel
  induction fuel with
  | zero =>
    intro c n hn hnone
    interval_cases n
    exact ⟨[], by rw [show c = none from hnone]; exact ⟨rfl, trivial⟩⟩
  | succ fuel ih =>
    intro c n hn hnone
    match c with
    | none => exact ⟨[], rfl, trivial⟩
    | some x =>
      match n with
      | 0 => exact absurd hnone (by simp [iterFrom])
      | m + 1 =>
        rw [iterFrom_succ_front] at hnone
        obtain ⟨l, hl, hchain⟩ :=
          ih ((some x).bind (getParentGoal index)) m
            (Nat.le_of_succ_le_succ hn) hnone
        refine ⟨x :: l, ?_, rfl, hchain⟩
        show (ancestorsLoop index fuel (getParentGoal index x)).map (x :: ·) =
          some (x :: l)
        rw [show (some x).bind (getParentGoal index) =
          getParentGoal index x from rfl] at hl
        rw [hl]
        rfl

theorem mem_keys_of_getParentGoal_isSome (index : GoalIndex) (x : String)
    (h : (getParentGoal index x).isSome) :
    x ∈ index.goals.map (·.1) := by
  unfold getParentGoal at h
  cases hlook : dirLookup index.goals x with
  | none => rw [hlook] at h; simp at h
  | some e =>
    unfold dirLookup at hlook
    cases hfind : index.goals.find? (fun e => e.1 = x) with
    | none => rw [hfind] at hlook; simp at hlook
    | some entry =>
      have hmem := List.mem_of_find?_eq_some hfind
      have hpred := List.find?_some hfind
      simp at hpred
      rw [← hpred]
      exact List.mem_map.mpr ⟨entry, hmem, rfl⟩

theorem iterParent_eventually_none (index : GoalIndex) (goalId : String)
    (hacyc : ∀ m, m ≤ index.goals.length + 1 →
      ∀ n, n ≤ index.goals.length + 1 →
      iterParent index goalId m = iterParent index goalId n →
      (iterParent index goalId m).isSome → m = n) :
    ∃ n, n ≤ index.goals.length + 1 ∧ iterParent index goalId n = none := by
  by_contra hcon
  push_neg at hcon
  have hsome : ∀ n, n ≤ index.goals.length + 1 →
      (iterParent index goalId n).isSome := by
    intro n hn
    cases hiter : iterParent index goalId n with
    | none => exact absurd hiter (hcon n hn)
    | some _ => rfl
  set L := index.goals.length with hL
  have hf : ∀ i : Fin (L + 1), (iterParent index goalId i.val).isSome :=
    fun i => hsome i.val (Nat.le_succ_of_le (Nat.lt_succ_iff.mp i.isLt))
  let f : Fin (L + 1) → String :=
    fun i => (iterParent index goalId i.val).get (hf i)
  have hfi : ∀ i : Fin (L + 1),
      iterParent index goalId i.val = some (f i) :=
    fun i => (Option.some_get (hf i)).symm
  have hmaps : ∀ i ∈ (Finset.univ : Finset (Fin (L + 1))),
      f i ∈ (index.goals.map (·.1)).toFinset := by
    intro i _
    apply List.mem_toFinset.mpr
    apply mem_keys_of_getParentGoal_isSome
    have hnext : (iterParent index goalId (i.val + 1)).isSome :=
      hsome (i.val + 1) (Nat.succ_le_succ (Nat.lt_succ_iff.mp i.isLt))
    have : iterParent index goalId (i.val + 1) =
        (getParentGoal index (f i)) := by
      show (iterParent index goalId i.val).bind (getParentGoal index) = _
      rw [hfi i]
      rfl
    rwa [this] at hnext
  have hinj : Set.InjOn f (Finset.univ : Finset (Fin (L + 1))) := by
    intro i _ j _ hij
    have hm : iterParent index goalId i.val = iterParent index goalId j.val := by
      rw [hfi i, hfi j, hij]
    have := hacyc i.val
      (Nat.le_succ_of_le (Nat.lt_succ_iff.mp i.isLt)) j.val
      (Nat.le_succ_of_le (Nat.lt_succ_iff.mp j.isLt)) hm (hf i)
    exact Fin.ext this
  have hcard := Finset.card_le_card_of_injOn f hmaps hinj
  rw [Finset.card_univ, Fintype.card_fin] at hcard
  have hle : (index.goals.map (·.1)).toFinset.card ≤ L := by
    calc (index.goals.map (·.1)).toFinset.card
        ≤ (index.goals.map (·.1)).length := List.toFinset_card_le _
      _ = L := by rw [List.length_map]
  omega

/-- The summary entry of a goal that is its own parent. -/
def cyclicEntry : GoalIndexEntry :=
  { title := "a", status := "active", progress := 0, project := "p",
    parent := some "a", children := [], tags := [], updated := "t" }

/-- An index whose single goal's denormalized parent chain cycles. -/
def cyclicIndex : GoalIndex :=
  { schema_version := 1, generated := "t", goals := [("a", cyclicEntry)],
    by_status := [], by_project := [], by_tag := [],
    graph := { edges := [] } }

theorem cyclic_ancestorsLoop_none :
    ∀ fuel, ancestorsLoop cyclicIndex fuel (some "a") = none := by
  intro fuel
  induction fuel with
  | zero => rfl
  | succ fuel ih =>
    show (ancestorsLoop cyclicIndex fuel (getParentGoal cyclicIndex "a")).map
      ((· :: ·) "a") = none
    rw [show getParentGoal cyclicIndex "a" = some "a" from rfl, ih]
    rfl

/-- Claim C10: when the denormalized parent chain from `goalId` never revisits
an id (acyclicity, stated for the iterates the walk can reach), the
`getAncestors` walk terminates within `index.goals.length + 1` steps and
returns exactly the chain of parents from the nearest one up to a goal with
no parent.  The walk has no cycle detection: on a concrete index whose parent
entry points to itself, the loop never terminates (every fuel bound is
exhausted). -/
theorem getAncestors_terminates_of_acyclic :
    (∀ (index : GoalIndex) (goalId : String),
      (∀ m, m ≤ index.goals.length + 1 →
        ∀ n, n ≤ index.goals.length + 1 →
        iterParent index goalId m = iterParent index goalId n →
        (iterParent index goalId m).isSome → m = n) →
      ∃ l, getAncestorsFuel index (index.goals.length + 1) goalId = some l ∧
        isParentChain index (getParentGoal index goalId) l) ∧
    (∀ fuel, getAncestorsFuel cyclicIndex fuel "a" = none) := by
  constructor
  · intro index goalId hacyc
    obtain ⟨n, hn, hnone⟩ := iterParent_eventually_none index goalId hacyc
    match n, hn, hnone with
    | 0, _, hnone => exact absurd hnone (by simp [iterParent])
    | m + 1, hn, hnone =>
      rw [iterParent_eq_iterFrom, iterFrom_succ_front] at hnone
      exact ancestorsLoop_total index (index.goals.length + 1)
        ((some goalId).bind (getParentGoal index)) m
        (Nat.le_of_succ_le hn) hnone
  · intro fuel
    show ancestorsLoop cyclicIndex fuel (getParentGoal cyclicIndex "a") = none
    rw [show getParentGoal cyclicIndex "a" = some "a" from rfl]
    exact cyclic_ancestorsLoop_none fuel

/-- A two-goal index with an acyclic parent chain `a → b`. -/
def acyclicEntryA : GoalIndexEntry :=
  { title := "a", status := "active", progress := 0, project := "p",
    parent := some "b", children := [], tags := [], updated := "t" }

/-- The parentless end of the chain in `acyclicWitnessIndex`. -/
def acyclicEntryB : GoalIndexEntry :=
  { title := "b", status := "active", progress := 0, project := "p",
    parent := none, children := [], tags := [], updated := "t" }

/-- A concrete index on which the acyclicity hypothesis of the ancestors walk
is decidably checked. -/
def acyclicWitnessIndex : GoalIndex :=
  { schema_version := 1, generated := "t",
    goals := [("a", acyclicEntryA), ("b", acyclicEntryB)],
    by_status := [], by_project := [], by_tag := [],
    graph := { edges := [] } }

theorem getAncestors_terminates_witness :
    ∃ l, getAncestorsFuel acyclicWitnessIndex
        (acyclicWitnessIndex.goals.length + 1) "a" = some l ∧
      isParentChain acyclicWitnessIndex
        (getParentGoal acyclicWitnessIndex "a") l :=
  getAncestors_terminates_of_acyclic.1 acyclicWitnessIndex "a" (by decide)
